import Mathlib

/-!
Shallow embedding of the belief tracking engine of this repository
(`src/src/belief_system.py`, class `BeliefTracker`), together with proofs
about its specified behaviour.

Modelling conventions:
* Python floats are modelled as real numbers (`ℝ`); `float ** float` is
  modelled by `Real.rpow`, which agrees with CPython's `**` whenever CPython
  returns a float.  The two situations in which CPython's `**`/`max` at
  `get_belief` lines 57-58 does not produce a float (negative base with a
  non-integral exponent yields a `complex`, making `max` raise `TypeError`;
  zero base with a negative exponent raises `ZeroDivisionError`) are captured
  separately by the predicate `powNotFloat`.
* Timestamps (`datetime.utcnow()`) are real numbers counted in seconds; each
  mutating operation takes the current time as an explicit argument.
  `timedelta.total_seconds() / 3600` becomes `hoursPassed`.
* Python's insertion-ordered `dict` is an association list with unique keys:
  `assocSet` overwrites in place, `assocFind` looks up.
* `str.lower` / `in` (substring test) are modelled character-wise on `.data`.
-/

/-- `charListStartsWith needle hay` is true when `needle` is an initial
segment of `hay`. -/
def charListStartsWith : List Char → List Char → Bool
  | [], _ => true
  | _ :: _, [] => false
  | a :: as, b :: bs => a == b && charListStartsWith as bs

/-- `charListContains needle hay` is true when `needle` occurs as a
contiguous substring of `hay` (the semantics of Python's `needle in hay`). -/
def charListContains (needle : List Char) : List Char → Bool
  | [] => charListStartsWith needle []
  | b :: bs => charListStartsWith needle (b :: bs) || charListContains needle bs

/-- Python's substring test `needle in hay` on strings. -/
def pyIn (needle hay : String) : Bool :=
  charListContains needle.data hay.data

/-- Python's `str.lower()` (character-wise, as for the ASCII rule phrases). -/
def pyLower (s : String) : String :=
  ⟨s.data.map Char.toLower⟩

/-- Python's `any(word in text for word in words)`. -/
def pyAny (words : List String) (text : String) : Bool :=
  words.any fun w => pyIn w text

noncomputable section

/-- A current belief record (the per-key dict built at
`belief_system.py` lines 39-45). -/
structure Belief where
  value : String
  confidence : ℝ
  lastUpdated : ℝ
  decayFactor : ℝ
  updateCount : ℕ

/-- One entry of `belief_history` (lines 19-37). -/
structure ChangeEvent where
  key : String
  oldValue : Option String
  newValue : String
  oldConfidence : ℝ
  newConfidence : ℝ
  timestamp : ℝ
  changeType : String

/-- One entry of a `causal_links` adjacency list (lines 77-81). -/
structure CausalLink where
  effect : String
  strength : ℝ
  created : ℝ

/-- The mutable state of a `BeliefTracker` (lines 7-10). -/
structure BeliefTracker where
  beliefs : List (String × Belief)
  beliefHistory : List ChangeEvent
  causalLinks : List (String × List CausalLink)

/-- `BeliefTracker.__init__`: empty store, empty history, no edges. -/
def emptyTracker : BeliefTracker := ⟨[], [], []⟩

/-- Dict lookup `d.get(k)` / `d[k]` on an insertion-ordered dict modelled as
an association list. -/
def assocFind {α : Type} (k : String) : List (String × α) → Option α
  | [] => none
  | p :: rest => if p.1 = k then some p.2 else assocFind k rest

/-- Dict write `d[k] = v`: overwrite in place when the key exists, append at
the end otherwise (Python dicts keep insertion order). -/
def assocSet {α : Type} (k : String) (v : α) : List (String × α) → List (String × α)
  | [] => [(k, v)]
  | p :: rest => if p.1 = k then (k, v) :: rest else p :: assocSet k v rest

/-- The `ChangeEvent` appended by `update_belief` (lines 17-37): an
`update` event carrying the prior value/confidence when the key has a prior
record, otherwise a `new` event with null old value and old confidence 0.0. -/
def newEvent (t : BeliefTracker) (key value : String) (confidence now : ℝ) : ChangeEvent :=
  match assocFind key t.beliefs with
  | some old =>
    { key := key, oldValue := some old.value, newValue := value,
      oldConfidence := old.confidence, newConfidence := confidence,
      timestamp := now, changeType := "update" }
  | none =>
    { key := key, oldValue := none, newValue := value,
      oldConfidence := 0, newConfidence := confidence,
      timestamp := now, changeType := "new" }

/-- `update_belief` (lines 12-45).  Appends the change event, then overwrites
the record; `update_count` is the prior count (0 when absent) plus 1.
The Python defaults are `confidence=0.7`, `decay_factor=0.95`; callers inside
the class pass them explicitly here. -/
def updateBelief (t : BeliefTracker) (key value : String)
    (confidence decayFactor now : ℝ) : BeliefTracker :=
  { beliefs := assocSet key
      { value := value, confidence := confidence, lastUpdated := now,
        decayFactor := decayFactor,
        updateCount := (match assocFind key t.beliefs with
          | some old => old.updateCount
          | none => 0) + 1 } t.beliefs
    beliefHistory := t.beliefHistory ++ [newEvent t key value confidence now]
    causalLinks := t.causalLinks }

/-- `(now - last).total_seconds() / 3600` (lines 54-55). -/
def hoursPassed (last now : ℝ) : ℝ := (now - last) / 3600

/-- The dict returned by `get_belief`: a copy of the record plus the lazily
computed `current_confidence` (lines 52-58). -/
structure BeliefView where
  value : String
  confidence : ℝ
  lastUpdated : ℝ
  decayFactor : ℝ
  updateCount : ℕ
  currentConfidence : ℝ

/-- The view `get_belief` builds from a stored record at query time `now`:
all stored fields plus
`current_confidence = max(0.1, confidence * decay_factor ** (hours_passed / 24))`. -/
def beliefView (b : Belief) (now : ℝ) : BeliefView :=
  { value := b.value, confidence := b.confidence, lastUpdated := b.lastUpdated,
    decayFactor := b.decayFactor, updateCount := b.updateCount,
    currentConfidence :=
      max 0.1 (b.confidence * b.decayFactor ^ (hoursPassed b.lastUpdated now / 24)) }

/-- `get_belief` (lines 47-60): `None` for an unknown key, otherwise the
record's fields with the decayed confidence.  It copies the record and never
writes the decayed value back (the store is not an output). -/
def getBelief (t : BeliefTracker) (key : String) (now : ℝ) : Option BeliefView :=
  match assocFind key t.beliefs with
  | none => none
  | some b => some (beliefView b now)

/-- `get_all_beliefs` (lines 62-70): every known key whose current
confidence exceeds the visibility threshold 0.2, in store (insertion)
order. -/
def getAllBeliefs (t : BeliefTracker) (now : ℝ) : List (String × BeliefView) :=
  (t.beliefs.map Prod.fst).filterMap fun key =>
    match getBelief t key now with
    | some b => if 0.2 < b.currentConfidence then some (key, b) else none
    | none => none

/-- `add_causal_link` (lines 72-81): ensure the cause has an adjacency list,
then append the new edge (duplicates accumulate). -/
def addCausalLink (t : BeliefTracker) (cause effect : String)
    (strength now : ℝ) : BeliefTracker :=
  { t with causalLinks :=
      assocSet cause (((assocFind cause t.causalLinks).getD []) ++
        [{ effect := effect, strength := strength, created := now }]) t.causalLinks }

/-- `get_influenced_beliefs` (lines 83-95): for each outgoing edge of the
key, resolve the effect via `get_belief`; absent effects contribute
nothing. -/
def getInfluencedBeliefs (t : BeliefTracker) (beliefKey : String) (now : ℝ) :
    List (BeliefView × ℝ) :=
  match assocFind beliefKey t.causalLinks with
  | none => []
  | some links =>
    links.filterMap fun link =>
      (getBelief t link.effect now).map fun b => (b, link.strength)

/-- The report built by `get_belief_summary` (lines 97-115). -/
structure BeliefSummary where
  totalBeliefs : ℕ
  highConfidence : List (String × BeliefView)
  mediumConfidence : List (String × BeliefView)
  lowConfidence : List (String × BeliefView)
  causalLinksCount : ℕ
  recentChanges : List ChangeEvent

/-- `get_belief_summary` (lines 97-115): tiers of `get_all_beliefs` by
current confidence, the count of cause keys, and `belief_history[-5:]`. -/
def getBeliefSummary (t : BeliefTracker) (now : ℝ) : BeliefSummary :=
  let beliefs := getAllBeliefs t now
  { totalBeliefs := beliefs.length
    highConfidence := beliefs.filter fun kv => decide (0.7 < kv.2.currentConfidence)
    mediumConfidence := beliefs.filter fun kv =>
      decide (0.4 ≤ kv.2.currentConfidence ∧ kv.2.currentConfidence ≤ 0.7)
    lowConfidence := beliefs.filter fun kv => decide (kv.2.currentConfidence < 0.4)
    causalLinksCount := t.causalLinks.length
    recentChanges := t.beliefHistory.drop (t.beliefHistory.length - 5) }

/-- One `if any(word in news_lower for word in [...]): update; append` block
of `update_beliefs_from_news` (lines 152-170), acting on the running
`(tracker, updates)` pair.  The inner `update_belief` call leaves
`decay_factor` at its default 0.95. -/
def ruleStep (cond : Bool) (key value : String) (confidence : ℝ)
    (desc : String) (now : ℝ) (st : BeliefTracker × List String) :
    BeliefTracker × List String :=
  if cond then (updateBelief st.1 key value confidence 0.95 now, st.2 ++ [desc])
  else st

/-- `update_beliefs_from_news` (lines 147-172): lower-case the text, then run
the five keyword rules in source order. -/
def updateBeliefsFromNews (t : BeliefTracker) (newsSummary : String) (now : ℝ) :
    BeliefTracker × List String :=
  let newsLower := pyLower newsSummary
  ruleStep (pyAny ["market rally", "bull market", "optimism"] newsLower)
      "market_sentiment" "greedy" 0.8 "Updated market sentiment to greedy" now
    (ruleStep (pyAny ["market crash", "sell-off", "panic"] newsLower)
        "market_sentiment" "fearful" 0.9 "Updated market sentiment to fearful" now
      (ruleStep (pyAny ["inflation rising", "price increases", "cpi up"] newsLower)
          "inflation_trend" "rising" 0.7 "Updated inflation trend to rising" now
        (ruleStep (pyAny ["rate cut", "interest rate decrease", "fed lowers"] newsLower)
            "fed_policy" "easing" 0.8 "Updated Fed policy to easing" now
          (ruleStep (pyAny ["rate hike", "interest rate increase", "fed raises"] newsLower)
              "fed_policy" "tightening" 0.8 "Updated Fed policy to tightening" now
            (t, [])))))

/-- The seed beliefs of `initialize_default_beliefs` (lines 119-130). -/
def defaultBeliefs : List (String × String × ℝ) :=
  [("fed_policy", "neutral", 0.6),
   ("inflation_trend", "moderate", 0.5),
   ("market_sentiment", "cautious", 0.7),
   ("economic_growth", "steady", 0.6),
   ("interest_rates", "stable", 0.8),
   ("consumer_confidence", "moderate", 0.5),
   ("corporate_earnings", "growing", 0.6),
   ("geopolitical_risk", "elevated", 0.7),
   ("technology_disruption", "accelerating", 0.8),
   ("energy_transition", "ongoing", 0.9)]

/-- The seed causal edges of `initialize_default_beliefs` (lines 135-142). -/
def causalRelationships : List (String × String × ℝ) :=
  [("fed_policy", "interest_rates", 0.9),
   ("interest_rates", "market_sentiment", 0.7),
   ("inflation_trend", "fed_policy", 0.8),
   ("economic_growth", "corporate_earnings", 0.8),
   ("geopolitical_risk", "market_sentiment", 0.6),
   ("consumer_confidence", "economic_growth", 0.7)]

/-- `initialize_default_beliefs` (lines 117-145): seed the ten beliefs (with
the default decay factor 0.95), then the six causal edges (with creation
time `now`). -/
def initializeDefaultBeliefs (t : BeliefTracker) (now : ℝ) : BeliefTracker :=
  let t1 := defaultBeliefs.foldl
    (fun acc kvc => updateBelief acc kvc.1 kvc.2.1 kvc.2.2 0.95 now) t
  causalRelationships.foldl
    (fun acc ces => addCausalLink acc ces.1 ces.2.1 ces.2.2 now) t1

/-- The decay formula as §4.2 of the spec words it:
`EffectiveConfidence(record, now) = max(0.1, baseConfidence × decayFactor^(hoursElapsed / 24))`
with `hoursElapsed = (now − lastUpdated)` expressed in hours (seconds / 3600). -/
def specEffectiveConfidence (baseConfidence decayFactor lastUpdated now : ℝ) : ℝ :=
  max 0.1 (baseConfidence * decayFactor ^ (((now - lastUpdated) / 3600) / 24))

/-- CPython semantics of `x ** y` on floats, modelled over ℝ: the operation
does not produce a float exactly when `x < 0` and `y` is not integral (the
result is a `complex`, so the subsequent `max(0.1, ...)` raises `TypeError`),
or `x = 0` and `y < 0` (`ZeroDivisionError`).  In every other case CPython
returns the float that `Real.rpow` denotes. -/
def powNotFloat (x y : ℝ) : Prop :=
  (x < 0 ∧ ¬ ∃ n : ℤ, y = (n : ℝ)) ∨ (x = 0 ∧ y < 0)

/-- `get_belief t key` at time `now` raises a runtime error: the key is
present and the decay exponentiation at line 57 does not yield a float. -/
def getBeliefFails (t : BeliefTracker) (key : String) (now : ℝ) : Prop :=
  ∃ b, assocFind key t.beliefs = some b ∧
    powNotFloat b.decayFactor (hoursPassed b.lastUpdated now / 24)

/-- `get_all_beliefs` (and hence `get_belief_summary`) raises: some stored
key's `get_belief` raises. -/
def getAllBeliefsFails (t : BeliefTracker) (now : ℝ) : Prop :=
  ∃ key ∈ t.beliefs.map Prod.fst, getBeliefFails t key now

/-- `get_influenced_beliefs` raises: some outgoing edge's effect lookup
raises. -/
def getInfluencedBeliefsFails (t : BeliefTracker) (beliefKey : String) (now : ℝ) : Prop :=
  ∃ link ∈ (assocFind beliefKey t.causalLinks).getD [], getBeliefFails t link.effect now

/-- One mutating call on a `BeliefTracker`, with the wall-clock time it
observes.  (The read operations do not change the state.) -/
inductive TrackerOp where
  | update (key value : String) (confidence decayFactor now : ℝ)
  | addLink (cause effect : String) (strength now : ℝ)
  | ingest (text : String) (now : ℝ)
  | seed (now : ℝ)

/-- Run one mutating call. -/
def applyOp (t : BeliefTracker) : TrackerOp → BeliefTracker
  | .update k v c d now => updateBelief t k v c d now
  | .addLink c e s now => addCausalLink t c e s now
  | .ingest text now => (updateBeliefsFromNews t text now).1
  | .seed now => initializeDefaultBeliefs t now

/-- The state after a sequence of mutating calls on a fresh tracker. -/
def runOps (ops : List TrackerOp) : BeliefTracker :=
  ops.foldl applyOp emptyTracker

/-- How many of the five news rules fire on a given text (each firing rule
performs exactly one `update_belief`). -/
def ingestFireCount (text : String) : ℕ :=
  (if pyAny ["rate hike", "interest rate increase", "fed raises"] (pyLower text)
    then 1 else 0) +
  (if pyAny ["rate cut", "interest rate decrease", "fed lowers"] (pyLower text)
    then 1 else 0) +
  (if pyAny ["inflation rising", "price increases", "cpi up"] (pyLower text)
    then 1 else 0) +
  (if pyAny ["market crash", "sell-off", "panic"] (pyLower text)
    then 1 else 0) +
  (if pyAny ["market rally", "bull market", "optimism"] (pyLower text)
    then 1 else 0)

/-- The number of `update_belief` calls one `TrackerOp` performs: one for a
direct update, none for an edge insertion, one per firing rule for a news
ingestion, and ten for the bootstrap seed. -/
def opUpdateCalls : TrackerOp → ℕ
  | .update _ _ _ _ _ => 1
  | .addLink _ _ _ _ => 0
  | .ingest text _ => ingestFireCount text
  | .seed _ => 10

/-- The change events of the log that concern one key, in append order. -/
def eventsFor (t : BeliefTracker) (k : String) : List ChangeEvent :=
  t.beliefHistory.filter fun e => decide (e.key = k)

/-- The invariant linking the store to the log: every current record's
`update_count` equals the number of logged events for its key, the most
recent such event records the stored value and base confidence, and keys
without a record have no events. -/
def StoreLogInv (t : BeliefTracker) : Prop :=
  ∀ k : String,
    (∀ b, assocFind k t.beliefs = some b →
      b.updateCount = (eventsFor t k).length ∧
      ∃ ev, (eventsFor t k).getLast? = some ev ∧
        ev.newValue = b.value ∧ ev.newConfidence = b.confidence) ∧
    (assocFind k t.beliefs = none → eventsFor t k = [])

/-- A throwaway view used only as the (never inspected) `Option.getD`
default when re-expressing `get_influenced_beliefs`. -/
def blankView : BeliefView :=
  { value := "", confidence := 0, lastUpdated := 0, decayFactor := 0,
    updateCount := 0, currentConfidence := 0 }

/-- The change log of `t2` extends that of `t1`: the old events are still
there, unchanged and in order, with new events only appended after them. -/
def historyExtends (t1 t2 : BeliefTracker) : Prop :=
  ∃ es, t2.beliefHistory = t1.beliefHistory ++ es

end

/-! ### Association-list lemmas -/

theorem assocFind_assocSet_self {α : Type} (k : String) (v : α)
    (l : List (String × α)) : assocFind k (assocSet k v l) = some v := by
  induction l with
  | nil => simp [assocFind, assocSet]
  | cons p rest ih =>
    by_cases h : p.1 = k
    · simp [assocFind, assocSet, h]
    · simp [assocFind, assocSet, h, ih]

theorem assocFind_assocSet_ne {α : Type} {k k' : String} (v : α)
    (l : List (String × α)) (h : k' ≠ k) :
    assocFind k (assocSet k' v l) = assocFind k l := by
  induction l with
  | nil => simp [assocFind, assocSet, h]
  | cons p rest ih =>
    by_cases hp : p.1 = k'
    · simp [assocFind, assocSet, hp, h]
    · simp [assocFind, assocSet, hp, ih]

theorem assocFind_some_mem {α : Type} {k : String} {v : α}
    {l : List (String × α)} (h : assocFind k l = some v) : (k, v) ∈ l := by
  induction l with
  | nil => simp [assocFind] at h
  | cons p rest ih =>
    by_cases hp : p.1 = k
    · simp [assocFind, hp] at h
      have hpv : p = (k, v) := by cases p; simp_all
      rw [hpv]
      exact List.mem_cons_self _ _
    · simp [assocFind, hp] at h
      exact List.mem_cons_of_mem _ (ih h)

theorem assocFind_some_key_mem {α : Type} {k : String} {v : α}
    {l : List (String × α)} (h : assocFind k l = some v) :
    k ∈ l.map Prod.fst := by
  have := assocFind_some_mem h
  exact List.mem_map.mpr ⟨(k, v), this, rfl⟩

/-! ### `get_belief` and `update_belief` basics -/

theorem getBelief_eq_map (t : BeliefTracker) (key : String) (now : ℝ) :
    getBelief t key now = (assocFind key t.beliefs).map (beliefView · now) := by
  cases h : assocFind key t.beliefs <;> simp [getBelief, h]

theorem getBelief_some_iff {t : BeliefTracker} {key : String} {now : ℝ}
    {b : BeliefView} :
    getBelief t key now = some b ↔
      ∃ r, assocFind key t.beliefs = some r ∧ b = beliefView r now := by
  rw [getBelief_eq_map]
  cases h : assocFind key t.beliefs <;> simp [eq_comm]

/-- The view returned by `get_belief` satisfies the decay formula stated on
its own copied fields. -/
theorem getBelief_currentConfidence {t : BeliefTracker} {key : String}
    {now : ℝ} {b : BeliefView} (h : getBelief t key now = some b) :
    b.currentConfidence =
      max 0.1 (b.confidence * b.decayFactor ^ (hoursPassed b.lastUpdated now / 24)) := by
  obtain ⟨r, _, rfl⟩ := getBelief_some_iff.mp h
  rfl

theorem updateBelief_beliefs (t : BeliefTracker) (k v : String) (c d now : ℝ) :
    (updateBelief t k v c d now).beliefs =
      assocSet k
        { value := v, confidence := c, lastUpdated := now, decayFactor := d,
          updateCount := (match assocFind k t.beliefs with
            | some old => old.updateCount
            | none => 0) + 1 } t.beliefs := rfl

theorem updateBelief_beliefHistory (t : BeliefTracker) (k v : String)
    (c d now : ℝ) :
    (updateBelief t k v c d now).beliefHistory =
      t.beliefHistory ++ [newEvent t k v c now] := rfl

theorem updateBelief_causalLinks (t : BeliefTracker) (k v : String)
    (c d now : ℝ) :
    (updateBelief t k v c d now).causalLinks = t.causalLinks := rfl

theorem addCausalLink_beliefs (t : BeliefTracker) (c e : String) (s now : ℝ) :
    (addCausalLink t c e s now).beliefs = t.beliefs := rfl

theorem addCausalLink_beliefHistory (t : BeliefTracker) (c e : String)
    (s now : ℝ) :
    (addCausalLink t c e s now).beliefHistory = t.beliefHistory := rfl

/-! ### Decay arithmetic -/

/-- With a retention factor in `[0, 1]` and a nonnegative exponent the
clamped decayed confidence never exceeds a base confidence that is at least
the clamp floor. -/
theorem decay_le_base {c d e : ℝ} (hc : 0.1 ≤ c) (hd0 : 0 ≤ d) (hd1 : d ≤ 1)
    (he : 0 ≤ e) : max 0.1 (c * d ^ e) ≤ c := by
  have hpow : d ^ e ≤ 1 := Real.rpow_le_one hd0 hd1 he
  have hc0 : (0 : ℝ) ≤ c := le_trans (by norm_num) hc
  have : c * d ^ e ≤ c := by
    calc c * d ^ e ≤ c * 1 := by
          exact mul_le_mul_of_nonneg_left hpow hc0
      _ = c := mul_one c
  exact max_le hc this

/-- With a retention factor in `[0, 1)` the clamped decayed confidence is
non-increasing in the exponent (for exponents starting at 0). -/
theorem decay_antitone {c d e1 e2 : ℝ} (hd0 : 0 ≤ d) (hd1 : d < 1)
    (he1 : 0 ≤ e1) (he12 : e1 ≤ e2) :
    max 0.1 (c * d ^ e2) ≤ max 0.1 (c * d ^ e1) := by
  rcases eq_or_lt_of_le hd0 with hd | hd
  · -- d = 0
    rcases eq_or_lt_of_le he1 with he | he
    · -- e1 = 0: d ^ e1 = 1
      rw [← he, ← hd, Real.rpow_zero]
      rcases eq_or_lt_of_le he12 with h2 | h2
      · rw [← he] at h2
        rw [← h2, Real.rpow_zero]
      · rw [← he] at h2
        rw [Real.zero_rpow (ne_of_gt h2)]
        simp only [mul_zero, mul_one]
        rw [max_eq_left (by norm_num : (0 : ℝ) ≤ 0.1)]
        exact le_max_left _ _
    · -- 0 < e1 ≤ e2: d ^ e1 = d ^ e2 = 0
      rw [← hd, Real.zero_rpow (ne_of_gt he), Real.zero_rpow (ne_of_gt (lt_of_lt_of_le he he12))]
  · -- 0 < d < 1
    have hpow : d ^ e2 ≤ d ^ e1 := Real.rpow_le_rpow_of_exponent_ge hd (le_of_lt hd1) he12
    rcases le_or_lt 0 c with hc | hc
    · exact max_le_max (le_refl _) (mul_le_mul_of_nonneg_left hpow hc)
    · have p1 : c * d ^ e1 ≤ 0.1 :=
        le_trans (mul_nonpos_of_nonpos_of_nonneg (le_of_lt hc)
          (le_of_lt (Real.rpow_pos_of_pos hd e1))) (by norm_num)
      have p2 : c * d ^ e2 ≤ 0.1 :=
        le_trans (mul_nonpos_of_nonpos_of_nonneg (le_of_lt hc)
          (le_of_lt (Real.rpow_pos_of_pos hd e2))) (by norm_num)
      rw [max_eq_left p1, max_eq_left p2]

/-! ### Claims -/

/-- C3: for every stored record and query time, `get_belief` returns the
record's fields together with `currentConfidence = max(0.1, baseConfidence ×
decayFactor^(hoursElapsed / 24))`, `hoursElapsed = (now − lastUpdated)`
expressed in hours — a pure, deterministic function of the record and `now`.
The embedding's `getBelief` consumes the store and returns only the view,
mirroring that the code works on a copy and never writes the decayed value
back. -/
theorem c3_get_computes_decay_formula (t : BeliefTracker) (key : String) (now : ℝ) :
    getBelief t key now = (assocFind key t.beliefs).map fun r =>
      { value := r.value, confidence := r.confidence, lastUpdated := r.lastUpdated,
        decayFactor := r.decayFactor, updateCount := r.updateCount,
        currentConfidence :=
          specEffectiveConfidence r.confidence r.decayFactor r.lastUpdated now } := by
  cases h : assocFind key t.beliefs <;>
    simp [getBelief, h, beliefView, specEffectiveConfidence, hoursPassed]

/-- C6: immediately after `update_belief k v c d`, the stored value is `v`
(so `get_belief` sees it), the update count is the prior count plus one (one
when the key was new), and exactly one change event is appended: an
`update` event carrying the prior value and confidence when a prior record
existed, else a `new` event with null old value and old confidence 0.0. -/
theorem c6_update_postconditions (t : BeliefTracker) (k v : String) (c d now : ℝ) :
    ((getBelief (updateBelief t k v c d now) k now).map fun b => b.value) = some v
    ∧ ((assocFind k (updateBelief t k v c d now).beliefs).map fun b => b.updateCount)
        = some ((match assocFind k t.beliefs with
            | some old => old.updateCount
            | none => 0) + 1)
    ∧ (updateBelief t k v c d now).beliefHistory = t.beliefHistory ++
        [match assocFind k t.beliefs with
         | some old =>
           { key := k, oldValue := some old.value, newValue := v,
             oldConfidence := old.confidence, newConfidence := c,
             timestamp := now, changeType := "update" }
         | none =>
           { key := k, oldValue := none, newValue := v, oldConfidence := 0,
             newConfidence := c, timestamp := now, changeType := "new" }] := by
  refine ⟨?_, ?_, ?_⟩
  · rw [getBelief_eq_map, updateBelief_beliefs, assocFind_assocSet_self]
    rfl
  · rw [updateBelief_beliefs, assocFind_assocSet_self]
    rfl
  · rw [updateBelief_beliefHistory]
    cases h : assocFind k t.beliefs <;> simp [newEvent, h]

/-- C1 counterexample: `update_belief` accepts a base confidence of 0.05
(below the clamp floor) and a decay factor of 2 (growth), and in both cases
the current confidence computed by `get_belief` exceeds the record's
baseConfidence — so it does not lie in `[0.1, baseConfidence]` for all
accepted inputs. -/
theorem c1_counterexample :
    0.05 < (((getBelief (updateBelief emptyTracker "a" "v" 0.05 0.95 0) "a" 0).map
        fun b => b.currentConfidence).getD 0)
    ∧ 0.5 < (((getBelief (updateBelief emptyTracker "b" "v" 0.5 2 0) "b" 86400).map
        fun b => b.currentConfidence).getD 0) := by
  constructor
  · have h1 : getBelief (updateBelief emptyTracker "a" "v" 0.05 0.95 0) "a" 0
        = some (beliefView ⟨"v", 0.05, 0, 0.95, 1⟩ 0) := rfl
    rw [h1]
    simp only [Option.map_some', Option.getD_some, beliefView]
    have he : hoursPassed 0 (0 : ℝ) / 24 = 0 := by norm_num [hoursPassed]
    rw [he, Real.rpow_zero, mul_one,
      max_eq_left (by norm_num : (0.05 : ℝ) ≤ 0.1)]
    norm_num
  · have h2 : getBelief (updateBelief emptyTracker "b" "v" 0.5 2 0) "b" 86400
        = some (beliefView ⟨"v", 0.5, 0, 2, 1⟩ 86400) := rfl
    rw [h2]
    simp only [Option.map_some', Option.getD_some, beliefView]
    have he : hoursPassed 0 (86400 : ℝ) / 24 = 1 := by norm_num [hoursPassed]
    rw [he, Real.rpow_one,
      max_eq_right (by norm_num : (0.1 : ℝ) ≤ 0.5 * 2)]
    norm_num

/-- C1 (amended): for every stored record whose accepted inputs satisfy
`0.1 ≤ baseConfidence` and `0 ≤ decayFactor ≤ 1`, and every query time not
before `lastUpdated`, the current confidence computed by `get_belief` (the
value every read view carries) lies in `[0.1, baseConfidence]`; the lower
bound 0.1 holds independently of those restrictions. -/
theorem c1_confidence_bounds (t : BeliefTracker) (key : String) (now : ℝ)
    (b : BeliefView) (hget : getBelief t key now = some b)
    (hc : 0.1 ≤ b.confidence) (hd0 : 0 ≤ b.decayFactor)
    (hd1 : b.decayFactor ≤ 1) (hnow : b.lastUpdated ≤ now) :
    0.1 ≤ b.currentConfidence ∧ b.currentConfidence ≤ b.confidence := by
  have hcur := getBelief_currentConfidence hget
  constructor
  · rw [hcur]
    exact le_max_left _ _
  · rw [hcur]
    apply decay_le_base hc hd0 hd1
    have h0 : (0 : ℝ) ≤ now - b.lastUpdated := sub_nonneg.mpr hnow
    unfold hoursPassed
    exact div_nonneg (div_nonneg h0 (by norm_num)) (by norm_num)

/-- C1 witness: a concrete record (confidence 0.5, decay factor 0.95,
queried at its own update time) satisfying the amended bounds. -/
theorem c1_confidence_bounds_witness :
    0.1 ≤ (beliefView ⟨"v", 0.5, 0, 0.95, 1⟩ 0).currentConfidence
    ∧ (beliefView ⟨"v", 0.5, 0, 0.95, 1⟩ 0).currentConfidence
        ≤ (beliefView ⟨"v", 0.5, 0, 0.95, 1⟩ 0).confidence :=
  c1_confidence_bounds (updateBelief emptyTracker "a" "v" 0.5 0.95 0) "a" 0
    (beliefView ⟨"v", 0.5, 0, 0.95, 1⟩ 0) rfl
    (by norm_num [beliefView]) (by norm_num [beliefView])
    (by norm_num [beliefView]) (by norm_num [beliefView])

/-- C4 counterexample: a record `update_belief` accepts with decayFactor
`-1 < 1` whose current confidence grows from 0.1 (24 hours after the update)
to 1 (48 hours after it) — CPython evaluates `(-1.0) ** 1.0 = -1.0` and
`(-1.0) ** 2.0 = 1.0`, so this run raises nothing.  Effective confidence is
therefore not non-increasing for every record with decayFactor < 1. -/
theorem c4_counterexample :
    (((getBelief (updateBelief emptyTracker "a" "v" 1 (-1) 0) "a" 86400).map
        fun b => b.currentConfidence).getD 0)
      < (((getBelief (updateBelief emptyTracker "a" "v" 1 (-1) 0) "a" 172800).map
        fun b => b.currentConfidence).getD 0)
    ∧ (-1 : ℝ) < 1 := by
  constructor
  · have h1 : getBelief (updateBelief emptyTracker "a" "v" 1 (-1) 0) "a" 86400
        = some (beliefView ⟨"v", 1, 0, -1, 1⟩ 86400) := rfl
    have h2 : getBelief (updateBelief emptyTracker "a" "v" 1 (-1) 0) "a" 172800
        = some (beliefView ⟨"v", 1, 0, -1, 1⟩ 172800) := rfl
    rw [h1, h2]
    simp only [Option.map_some', Option.getD_some, beliefView]
    have e1 : hoursPassed 0 (86400 : ℝ) / 24 = 1 := by norm_num [hoursPassed]
    have e2 : hoursPassed 0 (172800 : ℝ) / 24 = 2 := by norm_num [hoursPassed]
    rw [e1, e2, Real.rpow_one]
    have e3 : ((-1 : ℝ)) ^ (2 : ℝ) = 1 := by
      have hn : ((2 : ℕ) : ℝ) = (2 : ℝ) := by norm_num
      rw [← hn, Real.rpow_natCast]
      norm_num
    rw [e3, max_eq_left (by norm_num : (1 : ℝ) * -1 ≤ 0.1),
      max_eq_right (by norm_num : (0.1 : ℝ) ≤ 1 * 1)]
    norm_num
  · norm_num

/-- C4 (amended): for every stored record, the current confidence
`get_belief` computes is non-increasing in the query time whenever
`0 ≤ decayFactor < 1` (and the query times do not precede `lastUpdated`),
is constant in the query time when `decayFactor = 1`, and never evaluates
below 0.1 — for a negative decayFactor it can increase (see the
counterexample). -/
theorem c4_decay_monotone (t : BeliefTracker) (key : String) (now1 now2 : ℝ)
    (b1 b2 : BeliefView) (h1 : getBelief t key now1 = some b1)
    (h2 : getBelief t key now2 = some b2) :
    (0 ≤ b1.decayFactor → b1.decayFactor < 1 → b1.lastUpdated ≤ now1 →
      now1 ≤ now2 → b2.currentConfidence ≤ b1.currentConfidence)
    ∧ (b1.decayFactor = 1 → b1.currentConfidence = b2.currentConfidence)
    ∧ 0.1 ≤ b1.currentConfidence := by
  obtain ⟨r1, hr1, rfl⟩ := getBelief_some_iff.mp h1
  obtain ⟨r2, hr2, rfl⟩ := getBelief_some_iff.mp h2
  have hrr : r1 = r2 := by
    have := hr1.symm.trans hr2
    exact Option.some.inj this
  subst hrr
  refine ⟨?_, ?_, ?_⟩
  · intro hd0 hd1 hl h12
    simp only [beliefView] at hd0 hd1 hl ⊢
    apply decay_antitone hd0 hd1
    · unfold hoursPassed
      have h0 : (0 : ℝ) ≤ now1 - r1.lastUpdated := sub_nonneg.mpr hl
      exact div_nonneg (div_nonneg h0 (by norm_num)) (by norm_num)
    · unfold hoursPassed
      have hs : now1 - r1.lastUpdated ≤ now2 - r1.lastUpdated :=
        sub_le_sub_right h12 _
      have h1' : (now1 - r1.lastUpdated) / 3600 ≤ (now2 - r1.lastUpdated) / 3600 :=
        (div_le_div_iff_of_pos_right (by norm_num)).mpr hs
      exact (div_le_div_iff_of_pos_right (by norm_num)).mpr h1'
  · intro hd
    simp only [beliefView] at hd ⊢
    rw [hd, Real.one_rpow, Real.one_rpow]
  · exact le_max_left _ _

/-- C4 witness: a concrete record with decay factor 0.5, compared at its own
update time twice. -/
theorem c4_decay_monotone_witness :
    (0 ≤ (beliefView ⟨"v", 0.9, 0, 0.5, 1⟩ 0).decayFactor →
      (beliefView ⟨"v", 0.9, 0, 0.5, 1⟩ 0).decayFactor < 1 →
      (beliefView ⟨"v", 0.9, 0, 0.5, 1⟩ 0).lastUpdated ≤ 0 → (0 : ℝ) ≤ 0 →
      (beliefView ⟨"v", 0.9, 0, 0.5, 1⟩ 0).currentConfidence ≤
        (beliefView ⟨"v", 0.9, 0, 0.5, 1⟩ 0).currentConfidence)
    ∧ ((beliefView ⟨"v", 0.9, 0, 0.5, 1⟩ 0).decayFactor = 1 →
      (beliefView ⟨"v", 0.9, 0, 0.5, 1⟩ 0).currentConfidence =
        (beliefView ⟨"v", 0.9, 0, 0.5, 1⟩ 0).currentConfidence)
    ∧ 0.1 ≤ (beliefView ⟨"v", 0.9, 0, 0.5, 1⟩ 0).currentConfidence :=
  c4_decay_monotone (updateBelief emptyTracker "a" "v" 0.9 0.5 0) "a" 0 0
    (beliefView ⟨"v", 0.9, 0, 0.5, 1⟩ 0) (beliefView ⟨"v", 0.9, 0, 0.5, 1⟩ 0)
    rfl rfl

/-- C2 counterexample: `update_belief` accepts decayFactor `-1`; querying the
record 12 hours later evaluates `(-1.0) ** 0.5`, which CPython returns as a
`complex`, so the `max` comparison at line 58 raises `TypeError` — `Get` does
not succeed on every record created from arbitrary numeric inputs. -/
theorem c2_counterexample :
    getBeliefFails (updateBelief emptyTracker "a" "v" 0.5 (-1) 0) "a" 43200 := by
  refine ⟨⟨"v", 0.5, 0, -1, 1⟩, rfl, Or.inl ⟨by norm_num, ?_⟩⟩
  rintro ⟨n, hn⟩
  have h12 : ((1 : ℝ) / 2) = (n : ℝ) := by
    rw [← hn]
    norm_num [hoursPassed]
  have h2 : (2 : ℝ) * (n : ℝ) = 1 := by linarith
  have h3 : (2 * n : ℤ) = 1 := by exact_mod_cast h2
  omega

/-- C2 (amended): provided every stored record has a nonnegative decayFactor
and was last updated at or before the query time, none of the read
operations raises: `get_belief` never fails and returns an explicit absent
result (`none`) exactly on unknown keys, and `get_all_beliefs`,
`get_belief_summary` (which reads through it) and `get_influenced_beliefs`
never fail either.  The mutators `update_belief` and `add_causal_link` and
the news ingestion are total by construction for arbitrary numeric inputs.
A negative stored decayFactor, however, can make `Get` raise (see the
counterexample). -/
theorem c2_total_operations (t : BeliefTracker) (now : ℝ)
    (h : ∀ p ∈ t.beliefs, 0 ≤ p.2.decayFactor ∧ p.2.lastUpdated ≤ now) :
    (∀ key, ¬ getBeliefFails t key now)
    ∧ ¬ getAllBeliefsFails t now
    ∧ (∀ key, ¬ getInfluencedBeliefsFails t key now)
    ∧ (∀ key, assocFind key t.beliefs = none → getBelief t key now = none)
    ∧ (∀ key r, assocFind key t.beliefs = some r →
        getBelief t key now = some (beliefView r now)) := by
  have hnof : ∀ key, ¬ getBeliefFails t key now := by
    intro key hf
    obtain ⟨b, hb, hpow⟩ := hf
    obtain ⟨hd0, hlast⟩ := h (key, b) (assocFind_some_mem hb)
    have he : 0 ≤ hoursPassed b.lastUpdated now / 24 := by
      unfold hoursPassed
      have h0 : (0 : ℝ) ≤ now - b.lastUpdated := sub_nonneg.mpr hlast
      exact div_nonneg (div_nonneg h0 (by norm_num)) (by norm_num)
    rcases hpow with ⟨hneg, _⟩ | ⟨_, hlt⟩
    · exact absurd hd0 (not_le.mpr hneg)
    · exact absurd he (not_le.mpr hlt)
  refine ⟨hnof, ?_, ?_, ?_, ?_⟩
  · rintro ⟨key, _, hf⟩
    exact hnof key hf
  · intro key
    rintro ⟨link, _, hf⟩
    exact hnof link.effect hf
  · intro key hk
    simp [getBelief, hk]
  · intro key r hk
    simp [getBelief, hk]

/-- C2 witness: a freshly updated record with the default decay factor,
queried at its own update time. -/
theorem c2_total_operations_witness :
    (∀ key, ¬ getBeliefFails (updateBelief emptyTracker "a" "v" 0.7 0.95 0) key 0)
    ∧ ¬ getAllBeliefsFails (updateBelief emptyTracker "a" "v" 0.7 0.95 0) 0
    ∧ (∀ key, ¬ getInfluencedBeliefsFails
        (updateBelief emptyTracker "a" "v" 0.7 0.95 0) key 0)
    ∧ (∀ key, assocFind key (updateBelief emptyTracker "a" "v" 0.7 0.95 0).beliefs = none →
        getBelief (updateBelief emptyTracker "a" "v" 0.7 0.95 0) key 0 = none)
    ∧ (∀ key r, assocFind key (updateBelief emptyTracker "a" "v" 0.7 0.95 0).beliefs = some r →
        getBelief (updateBelief emptyTracker "a" "v" 0.7 0.95 0) key 0 =
          some (beliefView r 0)) :=
  c2_total_operations (updateBelief emptyTracker "a" "v" 0.7 0.95 0) 0 (by
    intro p hp
    have hp' : p = ("a", (⟨"v", 0.7, 0, 0.95, 1⟩ : Belief)) := by
      simpa [updateBelief, emptyTracker, assocSet] using hp
    rw [hp']
    exact ⟨by norm_num, le_refl 0⟩)

/-! ### `get_all_beliefs` membership -/

theorem mem_getAllBeliefs {t : BeliefTracker} {now : ℝ} {k : String}
    {b : BeliefView} :
    (k, b) ∈ getAllBeliefs t now ↔
      getBelief t k now = some b ∧ 0.2 < b.currentConfidence := by
  unfold getAllBeliefs
  rw [List.mem_filterMap]
  constructor
  · rintro ⟨a, _, hfa⟩
    cases hb : getBelief t a now with
    | none => rw [hb] at hfa; simp at hfa
    | some bb =>
      rw [hb] at hfa
      by_cases hc : (0.2 : ℝ) < bb.currentConfidence
      · simp only [hc, if_true, Option.some.injEq, Prod.mk.injEq] at hfa
        obtain ⟨rfl, rfl⟩ := hfa
        exact ⟨hb, hc⟩
      · simp [hc] at hfa
  · rintro ⟨hg, hc⟩
    refine ⟨k, ?_, ?_⟩
    · obtain ⟨r, hr, _⟩ := getBelief_some_iff.mp hg
      exact assocFind_some_key_mem hr
    · simp only [hg]
      rw [if_pos hc]

/-- C7: each tier of the summary is exactly the sub-list of `get_all_beliefs`
in its confidence band, the three tiers are pairwise disjoint and together
cover `get_all_beliefs` exactly; `get_all_beliefs` contains a key exactly
when `get_belief` answers for it with current confidence above 0.2; and the
reported recent changes are the final (at most) five log entries in append
order. -/
theorem c7_summary_partition (t : BeliefTracker) (now : ℝ) (k : String)
    (b : BeliefView) :
    ((k, b) ∈ getAllBeliefs t now ↔
      getBelief t k now = some b ∧ 0.2 < b.currentConfidence)
    ∧ ((k, b) ∈ getAllBeliefs t now ↔
      ((k, b) ∈ (getBeliefSummary t now).highConfidence
        ∨ (k, b) ∈ (getBeliefSummary t now).mediumConfidence
        ∨ (k, b) ∈ (getBeliefSummary t now).lowConfidence))
    ∧ ¬ ((k, b) ∈ (getBeliefSummary t now).highConfidence
        ∧ (k, b) ∈ (getBeliefSummary t now).mediumConfidence)
    ∧ ¬ ((k, b) ∈ (getBeliefSummary t now).highConfidence
        ∧ (k, b) ∈ (getBeliefSummary t now).lowConfidence)
    ∧ ¬ ((k, b) ∈ (getBeliefSummary t now).mediumConfidence
        ∧ (k, b) ∈ (getBeliefSummary t now).lowConfidence)
    ∧ ∃ pre, t.beliefHistory = pre ++ (getBeliefSummary t now).recentChanges
        ∧ (getBeliefSummary t now).recentChanges.length
            = min 5 t.beliefHistory.length := by
  have hhigh : (k, b) ∈ (getBeliefSummary t now).highConfidence ↔
      (k, b) ∈ getAllBeliefs t now ∧ 0.7 < b.currentConfidence := by
    simp [getBeliefSummary, List.mem_filter]
  have hmed : (k, b) ∈ (getBeliefSummary t now).mediumConfidence ↔
      (k, b) ∈ getAllBeliefs t now ∧
        (0.4 ≤ b.currentConfidence ∧ b.currentConfidence ≤ 0.7) := by
    simp [getBeliefSummary, List.mem_filter]
  have hlow : (k, b) ∈ (getBeliefSummary t now).lowConfidence ↔
      (k, b) ∈ getAllBeliefs t now ∧ b.currentConfidence < 0.4 := by
    simp [getBeliefSummary, List.mem_filter]
  refine ⟨mem_getAllBeliefs, ?_, ?_, ?_, ?_, ?_⟩
  · constructor
    · intro hmem
      rcases lt_or_le 0.7 b.currentConfidence with hx | hx
      · exact Or.inl (hhigh.mpr ⟨hmem, hx⟩)
      · rcases le_or_lt 0.4 b.currentConfidence with hy | hy
        · exact Or.inr (Or.inl (hmed.mpr ⟨hmem, hy, hx⟩))
        · exact Or.inr (Or.inr (hlow.mpr ⟨hmem, hy⟩))
    · rintro (hm | hm | hm)
      · exact (hhigh.mp hm).1
      · exact (hmed.mp hm).1
      · exact (hlow.mp hm).1
  · rintro ⟨hm1, hm2⟩
    have a1 := (hhigh.mp hm1).2
    have a2 := (hmed.mp hm2).2
    linarith [a2.2]
  · rintro ⟨hm1, hm2⟩
    have a1 := (hhigh.mp hm1).2
    have a2 := (hlow.mp hm2).2
    linarith
  · rintro ⟨hm1, hm2⟩
    have a1 := (hmed.mp hm1).2
    have a2 := (hlow.mp hm2).2
    linarith [a1.1]
  · refine ⟨t.beliefHistory.take (t.beliefHistory.length - 5), ?_, ?_⟩
    · have hrec : (getBeliefSummary t now).recentChanges
          = t.beliefHistory.drop (t.beliefHistory.length - 5) := rfl
      rw [hrec, List.take_append_drop]
    · have hrec : (getBeliefSummary t now).recentChanges
          = t.beliefHistory.drop (t.beliefHistory.length - 5) := rfl
      rw [hrec, List.length_drop]
      omega

/-! ### `get_influenced_beliefs` -/

theorem influenced_filterMap_eq (t : BeliefTracker) (now : ℝ)
    (links : List CausalLink) :
    (links.filterMap fun link =>
      (getBelief t link.effect now).map fun b => (b, link.strength))
    = ((links.filter fun link => (getBelief t link.effect now).isSome).map
        fun link => ((getBelief t link.effect now).getD blankView, link.strength)) := by
  induction links with
  | nil => rfl
  | cons l rest ih =>
    cases hb : getBelief t l.effect now with
    | none => simp [List.filterMap_cons, List.filter_cons, hb, ih]
    | some bb => simp [List.filterMap_cons, List.filter_cons, hb, ih]

/-- C8: `get_influenced_beliefs cause` is exactly the in-order image of those
outgoing edges of `cause` whose effect currently has a belief — one entry per
such edge, carrying that edge's strength, and no entry for edges to
never-created effects; and `add_causal_link` appends one more edge to the
cause's adjacency list, so duplicate (cause, effect) pairs accumulate as
distinct edges. -/
theorem c8_influenced_edges (t : BeliefTracker) (cause : String) (now : ℝ) :
    getInfluencedBeliefs t cause now =
      ((((assocFind cause t.causalLinks).getD []).filter
          fun link => (getBelief t link.effect now).isSome).map
        fun link => ((getBelief t link.effect now).getD blankView, link.strength))
    ∧ ∀ (t2 : BeliefTracker) (c e : String) (s now2 : ℝ),
        (assocFind c (addCausalLink t2 c e s now2).causalLinks).getD []
          = ((assocFind c t2.causalLinks).getD [])
            ++ [{ effect := e, strength := s, created := now2 }] := by
  constructor
  · cases h : assocFind cause t.causalLinks with
    | none => simp [getInfluencedBeliefs, h]
    | some links =>
      simp only [getInfluencedBeliefs, h, Option.getD_some]
      exact influenced_filterMap_eq t now links
  · intro t2 c e s now2
    have : (addCausalLink t2 c e s now2).causalLinks
        = assocSet c (((assocFind c t2.causalLinks).getD []) ++
            [{ effect := e, strength := s, created := now2 }]) t2.causalLinks := rfl
    rw [this, assocFind_assocSet_self]
    rfl

/-! ### News ingestion -/

/-- C9: on `"Fed raises rates amid inflation rising"` exactly the first and
third rules fire, returning exactly the two description strings and leaving
`fed_policy = tightening` at base confidence 0.8 and
`inflation_trend = rising` at base confidence 0.7 (whatever the prior
state); on the empty string no rule fires, nothing is returned and the
tracker is unchanged. -/
theorem c9_news_ingestion (t : BeliefTracker) (now : ℝ) :
    (updateBeliefsFromNews t "Fed raises rates amid inflation rising" now).2
      = ["Updated Fed policy to tightening", "Updated inflation trend to rising"]
    ∧ ((assocFind "fed_policy"
        (updateBeliefsFromNews t "Fed raises rates amid inflation rising" now).1.beliefs).map
          fun b => (b.value, b.confidence)) = some ("tightening", 0.8)
    ∧ ((assocFind "inflation_trend"
        (updateBeliefsFromNews t "Fed raises rates amid inflation rising" now).1.beliefs).map
          fun b => (b.value, b.confidence)) = some ("rising", 0.7)
    ∧ updateBeliefsFromNews t "" now = (t, []) := by
  have hc1 : pyAny ["rate hike", "interest rate increase", "fed raises"]
      (pyLower "Fed raises rates amid inflation rising") = true := by decide
  have hc2 : pyAny ["rate cut", "interest rate decrease", "fed lowers"]
      (pyLower "Fed raises rates amid inflation rising") = false := by decide
  have hc3 : pyAny ["inflation rising", "price increases", "cpi up"]
      (pyLower "Fed raises rates amid inflation rising") = true := by decide
  have hc4 : pyAny ["market crash", "sell-off", "panic"]
      (pyLower "Fed raises rates amid inflation rising") = false := by decide
  have hc5 : pyAny ["market rally", "bull market", "optimism"]
      (pyLower "Fed raises rates amid inflation rising") = false := by decide
  have hrun : updateBeliefsFromNews t "Fed raises rates amid inflation rising" now
      = (updateBelief (updateBelief t "fed_policy" "tightening" 0.8 0.95 now)
          "inflation_trend" "rising" 0.7 0.95 now,
        ["Updated Fed policy to tightening", "Updated inflation trend to rising"]) := by
    unfold updateBeliefsFromNews
    simp only [hc1, hc2, hc3, hc4, hc5, ruleStep, if_true, if_false,
      Bool.false_eq_true, List.nil_append, List.append_assoc, List.cons_append]
  have hne : ("inflation_trend" : String) ≠ "fed_policy" := by decide
  refine ⟨?_, ?_, ?_, ?_⟩
  · rw [hrun]
  · have h1 : (updateBeliefsFromNews t "Fed raises rates amid inflation rising" now).1
        = updateBelief (updateBelief t "fed_policy" "tightening" 0.8 0.95 now)
            "inflation_trend" "rising" 0.7 0.95 now := by rw [hrun]
    rw [h1, updateBelief_beliefs, assocFind_assocSet_ne _ _ hne,
      updateBelief_beliefs, assocFind_assocSet_self]
    rfl
  · have h1 : (updateBeliefsFromNews t "Fed raises rates amid inflation rising" now).1
        = updateBelief (updateBelief t "fed_policy" "tightening" 0.8 0.95 now)
            "inflation_trend" "rising" 0.7 0.95 now := by rw [hrun]
    rw [h1, updateBelief_beliefs, assocFind_assocSet_self]
    rfl
  · have d1 : pyAny ["rate hike", "interest rate increase", "fed raises"]
        (pyLower "") = false := by decide
    have d2 : pyAny ["rate cut", "interest rate decrease", "fed lowers"]
        (pyLower "") = false := by decide
    have d3 : pyAny ["inflation rising", "price increases", "cpi up"]
        (pyLower "") = false := by decide
    have d4 : pyAny ["market crash", "sell-off", "panic"]
        (pyLower "") = false := by decide
    have d5 : pyAny ["market rally", "bull market", "optimism"]
        (pyLower "") = false := by decide
    unfold updateBeliefsFromNews
    simp only [d1, d2, d3, d4, d5, ruleStep, Bool.false_eq_true, if_false]

/-! ### Change-log accounting -/

theorem historyExtends_refl (t : BeliefTracker) : historyExtends t t :=
  ⟨[], (List.append_nil _).symm⟩

theorem historyExtends_trans {t1 t2 t3 : BeliefTracker}
    (h12 : historyExtends t1 t2) (h23 : historyExtends t2 t3) :
    historyExtends t1 t3 := by
  obtain ⟨es, he⟩ := h12
  obtain ⟨fs, hf⟩ := h23
  exact ⟨es ++ fs, by rw [hf, he, List.append_assoc]⟩

theorem historyExtends_updateBelief (t : BeliefTracker) (k v : String)
    (c d now : ℝ) : historyExtends t (updateBelief t k v c d now) :=
  ⟨[newEvent t k v c now], rfl⟩

theorem historyExtends_addCausalLink (t : BeliefTracker) (c e : String)
    (s now : ℝ) : historyExtends t (addCausalLink t c e s now) :=
  ⟨[], (List.append_nil _).symm⟩

theorem historyExtends_ruleStep (cond : Bool) (k v : String) (c : ℝ)
    (ds : String) (now : ℝ) (st : BeliefTracker × List String) :
    historyExtends st.1 (ruleStep cond k v c ds now st).1 := by
  cases cond
  · exact historyExtends_refl st.1
  · exact historyExtends_updateBelief st.1 k v c 0.95 now

theorem historyExtends_news (t : BeliefTracker) (text : String) (now : ℝ) :
    historyExtends t (updateBeliefsFromNews t text now).1 := by
  unfold updateBeliefsFromNews
  refine historyExtends_trans ?_ (historyExtends_ruleStep _ _ _ _ _ _ _)
  refine historyExtends_trans ?_ (historyExtends_ruleStep _ _ _ _ _ _ _)
  refine historyExtends_trans ?_ (historyExtends_ruleStep _ _ _ _ _ _ _)
  refine historyExtends_trans ?_ (historyExtends_ruleStep _ _ _ _ _ _ _)
  refine historyExtends_trans ?_ (historyExtends_ruleStep _ _ _ _ _ _ _)
  exact historyExtends_refl t

theorem historyExtends_foldl_updates (l : List (String × String × ℝ)) (now : ℝ) :
    ∀ t : BeliefTracker, historyExtends t
      (l.foldl (fun acc kvc => updateBelief acc kvc.1 kvc.2.1 kvc.2.2 0.95 now) t) := by
  induction l with
  | nil => intro t; exact historyExtends_refl t
  | cons p rest ih =>
    intro t
    exact historyExtends_trans
      (historyExtends_updateBelief t p.1 p.2.1 p.2.2 0.95 now) (ih _)

theorem historyExtends_foldl_addLinks (l : List (String × String × ℝ)) (now : ℝ) :
    ∀ t : BeliefTracker, historyExtends t
      (l.foldl (fun acc ces => addCausalLink acc ces.1 ces.2.1 ces.2.2 now) t) := by
  induction l with
  | nil => intro t; exact historyExtends_refl t
  | cons p rest ih =>
    intro t
    exact historyExtends_trans
      (historyExtends_addCausalLink t p.1 p.2.1 p.2.2 now) (ih _)

theorem historyExtends_seed (t : BeliefTracker) (now : ℝ) :
    historyExtends t (initializeDefaultBeliefs t now) := by
  unfold initializeDefaultBeliefs
  exact historyExtends_trans (historyExtends_foldl_updates defaultBeliefs now t)
    (historyExtends_foldl_addLinks causalRelationships now _)

theorem historyExtends_applyOp (t : BeliefTracker) (op : TrackerOp) :
    historyExtends t (applyOp t op) := by
  cases op with
  | update k v c d now => exact historyExtends_updateBelief t k v c d now
  | addLink c e s now => exact historyExtends_addCausalLink t c e s now
  | ingest text now => exact historyExtends_news t text now
  | seed now => exact historyExtends_seed t now

theorem historyExtends_foldl_ops (ops : List TrackerOp) :
    ∀ t : BeliefTracker, historyExtends t (ops.foldl applyOp t) := by
  induction ops with
  | nil => intro t; exact historyExtends_refl t
  | cons op rest ih =>
    intro t
    exact historyExtends_trans (historyExtends_applyOp t op) (ih _)

theorem news_history_length (t : BeliefTracker) (text : String) (now : ℝ) :
    (updateBeliefsFromNews t text now).1.beliefHistory.length
      = t.beliefHistory.length + ingestFireCount text := by
  unfold updateBeliefsFromNews ingestFireCount
  cases h1 : pyAny ["rate hike", "interest rate increase", "fed raises"] (pyLower text) <;>
    cases h2 : pyAny ["rate cut", "interest rate decrease", "fed lowers"] (pyLower text) <;>
      cases h3 : pyAny ["inflation rising", "price increases", "cpi up"] (pyLower text) <;>
        cases h4 : pyAny ["market crash", "sell-off", "panic"] (pyLower text) <;>
          cases h5 : pyAny ["market rally", "bull market", "optimism"] (pyLower text) <;>
            simp [h1, h2, h3, h4, h5, ruleStep, updateBelief_beliefHistory]

theorem seed_history_length_updates (l : List (String × String × ℝ)) (now : ℝ) :
    ∀ t : BeliefTracker,
      (l.foldl (fun acc kvc => updateBelief acc kvc.1 kvc.2.1 kvc.2.2 0.95 now) t).beliefHistory.length
        = t.beliefHistory.length + l.length := by
  induction l with
  | nil => intro t; rfl
  | cons p rest ih =>
    intro t
    rw [List.foldl_cons, ih, updateBelief_beliefHistory, List.length_append]
    simp
    omega

theorem seed_history_length_addLinks (l : List (String × String × ℝ)) (now : ℝ) :
    ∀ t : BeliefTracker,
      (l.foldl (fun acc ces => addCausalLink acc ces.1 ces.2.1 ces.2.2 now) t).beliefHistory.length
        = t.beliefHistory.length := by
  induction l with
  | nil => intro t; rfl
  | cons p rest ih =>
    intro t
    rw [List.foldl_cons, ih, addCausalLink_beliefHistory]

theorem applyOp_history_length (t : BeliefTracker) (op : TrackerOp) :
    (applyOp t op).beliefHistory.length
      = t.beliefHistory.length + opUpdateCalls op := by
  cases op with
  | update k v c d now =>
    simp [applyOp, opUpdateCalls, updateBelief_beliefHistory]
  | addLink c e s now =>
    simp [applyOp, opUpdateCalls, addCausalLink_beliefHistory]
  | ingest text now =>
    simpa [applyOp, opUpdateCalls] using news_history_length t text now
  | seed now =>
    show (initializeDefaultBeliefs t now).beliefHistory.length
      = t.beliefHistory.length + 10
    unfold initializeDefaultBeliefs
    rw [seed_history_length_addLinks, seed_history_length_updates]
    rfl

theorem foldl_ops_history_length (ops : List TrackerOp) :
    ∀ t : BeliefTracker, (ops.foldl applyOp t).beliefHistory.length
      = t.beliefHistory.length + (ops.map opUpdateCalls).sum := by
  induction ops with
  | nil => intro t; rfl
  | cons op rest ih =>
    intro t
    rw [List.foldl_cons, ih, applyOp_history_length]
    simp [List.sum_cons]
    omega

/-- C5: after any sequence of mutating calls on a fresh tracker, the change
log holds exactly one event per `update_belief` call ever made — one per
direct update, one per firing news rule, ten for the bootstrap seed, none
for edge insertions — and running further calls only appends to the log:
the existing events are never mutated, removed or reordered. -/
theorem c5_changelog_append_only (ops : List TrackerOp) :
    (runOps ops).beliefHistory.length = (ops.map opUpdateCalls).sum
    ∧ ∀ more : List TrackerOp, ∃ es,
        (runOps (ops ++ more)).beliefHistory = (runOps ops).beliefHistory ++ es := by
  constructor
  · have h := foldl_ops_history_length ops emptyTracker
    simpa [runOps, emptyTracker] using h
  · intro more
    have h := historyExtends_foldl_ops more (runOps ops)
    rw [runOps, List.foldl_append]
    exact h

/-! ### Store/log invariant -/

theorem newEvent_key (t : BeliefTracker) (key v : String) (c now : ℝ) :
    (newEvent t key v c now).key = key := by
  unfold newEvent
  cases assocFind key t.beliefs <;> rfl

theorem newEvent_newValue (t : BeliefTracker) (key v : String) (c now : ℝ) :
    (newEvent t key v c now).newValue = v := by
  unfold newEvent
  cases assocFind key t.beliefs <;> rfl

theorem newEvent_newConfidence (t : BeliefTracker) (key v : String) (c now : ℝ) :
    (newEvent t key v c now).newConfidence = c := by
  unfold newEvent
  cases assocFind key t.beliefs <;> rfl

theorem eventsFor_updateBelief (t : BeliefTracker) (key v : String)
    (c d now : ℝ) (k : String) :
    eventsFor (updateBelief t key v c d now) k
      = if key = k then eventsFor t k ++ [newEvent t key v c now]
        else eventsFor t k := by
  unfold eventsFor
  rw [updateBelief_beliefHistory, List.filter_append]
  by_cases hk : key = k
  · simp [hk, List.filter_cons, newEvent_key]
  · simp [hk, List.filter_cons, newEvent_key]

theorem storeLogInv_updateBelief (t : BeliefTracker) (key v : String)
    (c d now : ℝ) (h : StoreLogInv t) :
    StoreLogInv (updateBelief t key v c d now) := by
  intro k
  constructor
  · intro b hb
    rw [updateBelief_beliefs] at hb
    by_cases hk : key = k
    · subst hk
      rw [assocFind_assocSet_self] at hb
      obtain rfl := (Option.some.inj hb).symm
      rw [eventsFor_updateBelief, if_pos rfl]
      cases hold : assocFind key t.beliefs with
      | some old =>
        have hc := ((h key).1 old hold).1
        constructor
        · simp only [hold, List.length_append, List.length_cons,
            List.length_nil]
          omega
        · exact ⟨newEvent t key v c now, List.getLast?_concat _,
            newEvent_newValue t key v c now, newEvent_newConfidence t key v c now⟩
      | none =>
        have he := (h key).2 hold
        constructor
        · simp [hold, he]
        · exact ⟨newEvent t key v c now, List.getLast?_concat _,
            newEvent_newValue t key v c now, newEvent_newConfidence t key v c now⟩
    · rw [assocFind_assocSet_ne _ _ hk] at hb
      rw [eventsFor_updateBelief, if_neg hk]
      exact (h k).1 b hb
  · intro hb
    rw [updateBelief_beliefs] at hb
    by_cases hk : key = k
    · subst hk
      rw [assocFind_assocSet_self] at hb
      exact absurd hb (by simp)
    · rw [assocFind_assocSet_ne _ _ hk] at hb
      rw [eventsFor_updateBelief, if_neg hk]
      exact (h k).2 hb

theorem storeLogInv_addCausalLink (t : BeliefTracker) (cs e : String)
    (s now : ℝ) (h : StoreLogInv t) :
    StoreLogInv (addCausalLink t cs e s now) := h

theorem storeLogInv_ruleStep (cond : Bool) (k v : String) (c : ℝ)
    (ds : String) (now : ℝ) (st : BeliefTracker × List String)
    (h : StoreLogInv st.1) : StoreLogInv (ruleStep cond k v c ds now st).1 := by
  cases cond
  · simpa [ruleStep] using h
  · simpa [ruleStep] using storeLogInv_updateBelief st.1 k v c 0.95 now h

theorem storeLogInv_news (t : BeliefTracker) (text : String) (now : ℝ)
    (h : StoreLogInv t) : StoreLogInv (updateBeliefsFromNews t text now).1 := by
  unfold updateBeliefsFromNews
  exact storeLogInv_ruleStep _ _ _ _ _ _ _
    (storeLogInv_ruleStep _ _ _ _ _ _ _
      (storeLogInv_ruleStep _ _ _ _ _ _ _
        (storeLogInv_ruleStep _ _ _ _ _ _ _
          (storeLogInv_ruleStep _ _ _ _ _ _ _ h))))

theorem storeLogInv_foldl_updates (l : List (String × String × ℝ)) (now : ℝ) :
    ∀ t : BeliefTracker, StoreLogInv t → StoreLogInv
      (l.foldl (fun acc kvc => updateBelief acc kvc.1 kvc.2.1 kvc.2.2 0.95 now) t) := by
  induction l with
  | nil => intro t h; exact h
  | cons p rest ih =>
    intro t h
    exact ih _ (storeLogInv_updateBelief t p.1 p.2.1 p.2.2 0.95 now h)

theorem storeLogInv_foldl_addLinks (l : List (String × String × ℝ)) (now : ℝ) :
    ∀ t : BeliefTracker, StoreLogInv t → StoreLogInv
      (l.foldl (fun acc ces => addCausalLink acc ces.1 ces.2.1 ces.2.2 now) t) := by
  induction l with
  | nil => intro t h; exact h
  | cons p rest ih =>
    intro t h
    exact ih _ (storeLogInv_addCausalLink t p.1 p.2.1 p.2.2 now h)

theorem storeLogInv_seed (t : BeliefTracker) (now : ℝ) (h : StoreLogInv t) :
    StoreLogInv (initializeDefaultBeliefs t now) := by
  unfold initializeDefaultBeliefs
  exact storeLogInv_foldl_addLinks causalRelationships now _
    (storeLogInv_foldl_updates defaultBeliefs now t h)

theorem storeLogInv_applyOp (t : BeliefTracker) (op : TrackerOp)
    (h : StoreLogInv t) : StoreLogInv (applyOp t op) := by
  cases op with
  | update k v c d now => exact storeLogInv_updateBelief t k v c d now h
  | addLink c e s now => exact storeLogInv_addCausalLink t c e s now h
  | ingest text now => exact storeLogInv_news t text now h
  | seed now => exact storeLogInv_seed t now h

theorem storeLogInv_empty : StoreLogInv emptyTracker := by
  intro k
  constructor
  · intro b hb
    simp [emptyTracker, assocFind] at hb
  · intro _
    rfl

theorem storeLogInv_runOps (ops : List TrackerOp) : StoreLogInv (runOps ops) := by
  have haux : ∀ (l : List TrackerOp) (t : BeliefTracker),
      StoreLogInv t → StoreLogInv (l.foldl applyOp t) := by
    intro l
    induction l with
    | nil => intro t h; exact h
    | cons op rest ih => intro t h; exact ih _ (storeLogInv_applyOp t op h)
  exact haux ops emptyTracker storeLogInv_empty

/-- C10: after any sequence of mutating calls on a fresh tracker, every
current record's `update_count` equals the number of change events logged
for its key, and the most recent such event's new value and new confidence
equal the record's stored value and base confidence. -/
theorem c10_store_matches_log (ops : List TrackerOp) (k : String) (b : Belief)
    (h : assocFind k (runOps ops).beliefs = some b) :
    b.updateCount = (eventsFor (runOps ops) k).length
    ∧ ∃ ev, (eventsFor (runOps ops) k).getLast? = some ev
        ∧ ev.newValue = b.value ∧ ev.newConfidence = b.confidence :=
  (storeLogInv_runOps ops k).1 b h

/-- C10 witness: a single update on a fresh tracker. -/
theorem c10_store_matches_log_witness :
    (⟨"v", 1, 0, 1, 1⟩ : Belief).updateCount
        = (eventsFor (runOps [TrackerOp.update "a" "v" 1 1 0]) "a").length
    ∧ ∃ ev, (eventsFor (runOps [TrackerOp.update "a" "v" 1 1 0]) "a").getLast? = some ev
        ∧ ev.newValue = (⟨"v", 1, 0, 1, 1⟩ : Belief).value
        ∧ ev.newConfidence = (⟨"v", 1, 0, 1, 1⟩ : Belief).confidence :=
  c10_store_matches_log [TrackerOp.update "a" "v" 1 1 0] "a" ⟨"v", 1, 0, 1, 1⟩ rfl
